import Mathlib

/-!
# chart-bitcoin: `src/ChartComponent.jsx`

A shallow embedding of the React component `ChartComponent` and proofs about it.

Modelling conventions.

* JavaScript numbers are the type `JSNum`: `NaN`, `-Infinity`, `+Infinity` and the finite
  values.  A finite value is given by its exact rational value; the results of `+ - * /`
  are rounded to the nearest IEEE-754 double, ties to even, and overflow to an infinity
  (`roundDouble`).  `-0` is not distinguished from `+0`.  Comparisons, `Math.max`,
  `Math.min`, division by zero and the propagation of `NaN` follow ECMAScript.
* The component state (the nine `useState` cells) is the record `State`.  A `World` is the
  state together with the log of the network requests issued so far.
* `async` functions are split at their single `await`: issuing the request is part of the
  effect (`runEffect`), the code after the `await` is a function of the response
  (`fetchData`, `fetchSectionData`).
* A JavaScript exception is the `Except.error` of `Except JSError`.
-/

namespace ChartBitcoin

/-! ## Numbers -/

/-- A JavaScript number. -/
inductive JSNum where
  | nan
  | negInf
  | fin (q : ℚ)
  | posInf
  deriving DecidableEq

namespace JSNum

/-- The number `0`, the initial value of `price`, `percentageChange` and of the analytics. -/
def zero : JSNum := fin 0

/-- JavaScript `a > b` on numbers (false as soon as one side is `NaN`). -/
def gt : JSNum → JSNum → Bool
  | nan, _ => false
  | _, nan => false
  | negInf, _ => false
  | _, posInf => false
  | posInf, _ => true
  | fin _, negInf => true
  | fin a, fin b => decide (b < a)

/-- JavaScript `a < b` on numbers. -/
def lt (a b : JSNum) : Bool := gt b a

/-- JavaScript `a <= b` on numbers (false as soon as one side is `NaN`). -/
def le : JSNum → JSNum → Bool
  | nan, _ => false
  | _, nan => false
  | negInf, _ => true
  | _, posInf => true
  | posInf, _ => false
  | fin _, negInf => false
  | fin a, fin b => decide (a ≤ b)

/-- Unary minus. -/
def neg : JSNum → JSNum
  | nan => nan
  | negInf => posInf
  | posInf => negInf
  | fin a => fin (-a)

/-- The integer nearest to `m`, the even one of the two when `m` lies halfway. -/
def roundHalfEven (m : ℚ) : ℤ :=
  if m - ⌊m⌋ < 1 / 2 then ⌊m⌋
  else if 1 / 2 < m - ⌊m⌋ then ⌊m⌋ + 1
  else if ⌊m⌋ % 2 = 0 then ⌊m⌋ else ⌊m⌋ + 1

/-- The binary exponent of the doubles around the magnitude `a`: the `e` with
`2^e ≤ a < 2^(e+1)`, and `-1022` below `2^(-1022)` (the subnormal range). -/
def binade (a : ℚ) : ℤ := max (Int.log 2 a) (-1022)

/-- The IEEE-754 binary64 value of a real result, round to nearest, ties to even: the
nearest multiple of `2^(e-52)`, where `e` is the binary exponent of the magnitude, and the
infinity of the sign when that multiple reaches `2^1024`. -/
def roundDouble (q : ℚ) : JSNum :=
  if 2 ^ 1024 ≤ (roundHalfEven (|q| / 2 ^ (binade |q| - 52)) : ℚ) * 2 ^ (binade |q| - 52) then
    if 0 < q then posInf else negInf
  else if q < 0 then fin (-((roundHalfEven (|q| / 2 ^ (binade |q| - 52)) : ℚ)
    * 2 ^ (binade |q| - 52)))
  else fin ((roundHalfEven (|q| / 2 ^ (binade |q| - 52)) : ℚ) * 2 ^ (binade |q| - 52))

/-- JavaScript `a + b` on numbers: on finite values, the exact sum rounded to a double. -/
def add : JSNum → JSNum → JSNum
  | nan, _ => nan
  | _, nan => nan
  | posInf, negInf => nan
  | negInf, posInf => nan
  | posInf, _ => posInf
  | _, posInf => posInf
  | negInf, _ => negInf
  | _, negInf => negInf
  | fin a, fin b => roundDouble (a + b)

/-- JavaScript `a - b` on numbers. -/
def sub (a b : JSNum) : JSNum := add a (neg b)

/-- The infinity carrying the sign of the product of two signs: `+Infinity` when `pos`. -/
def signedInf (pos : Bool) : JSNum := if pos then posInf else negInf

/-- JavaScript `a * b` on numbers: on finite values, the exact product rounded to a
double. -/
def mul : JSNum → JSNum → JSNum
  | nan, _ => nan
  | _, nan => nan
  | posInf, posInf => posInf
  | posInf, negInf => negInf
  | negInf, posInf => negInf
  | negInf, negInf => posInf
  | posInf, fin b => if b = 0 then nan else signedInf (decide (0 < b))
  | negInf, fin b => if b = 0 then nan else signedInf (decide (b < 0))
  | fin a, posInf => if a = 0 then nan else signedInf (decide (0 < a))
  | fin a, negInf => if a = 0 then nan else signedInf (decide (a < 0))
  | fin a, fin b => roundDouble (a * b)

/-- JavaScript `a / b` on numbers: on finite values with a divisor that is not zero, the
exact quotient rounded to a double. -/
def div : JSNum → JSNum → JSNum
  | nan, _ => nan
  | _, nan => nan
  | posInf, posInf => nan
  | posInf, negInf => nan
  | negInf, posInf => nan
  | negInf, negInf => nan
  | posInf, fin b => signedInf (decide (0 ≤ b))
  | negInf, fin b => signedInf (decide (b < 0))
  | fin _, posInf => fin 0
  | fin _, negInf => fin 0
  | fin a, fin b =>
    if b = 0 then
      if a = 0 then nan else signedInf (decide (0 < a))
    else roundDouble (a / b)

end JSNum

open JSNum

/-- One turn of the loop of `Math.max`: `NaN` once an argument is `NaN`, otherwise the
larger of the running value and the argument. -/
def maxStep (highest x : JSNum) : JSNum :=
  if highest = nan ∨ x = nan then nan else if gt x highest then x else highest

/-- One turn of the loop of `Math.min`. -/
def minStep (lowest x : JSNum) : JSNum :=
  if lowest = nan ∨ x = nan then nan else if lt x lowest then x else lowest

/-- `Math.max(...xs)`: the loop starts from `-Infinity`. -/
def mathMax (xs : List JSNum) : JSNum := xs.foldl maxStep negInf

/-- `Math.min(...xs)`: the loop starts from `+Infinity`. -/
def mathMin (xs : List JSNum) : JSNum := xs.foldl minStep posInf

/-! ## Dates -/

/-- A JavaScript exception, by kind.  `requestFailed` is the rejection of `axios.get`
(network error or a status outside 2xx). -/
inductive JSError where
  | typeError
  | rangeError
  | requestFailed
  deriving DecidableEq

/-- A JavaScript `Date`: its time value is an integral number of milliseconds since the
epoch, or `NaN` (an invalid date). -/
inductive JSDate where
  | invalid
  | valid (ms : ℤ)
  deriving DecidableEq

/-- The largest magnitude of a time value, `8.64e15` milliseconds. -/
def maxTimeValue : ℚ := 8640000000000000

/-- `new Date(timestamp)` for a number: `TimeClip`, that is, invalid when the number is not
finite or exceeds `8.64e15` in magnitude, truncated toward zero otherwise. -/
def newDate : JSNum → JSDate
  | fin q => if |q| ≤ maxTimeValue then .valid (Int.tdiv q.num q.den) else .invalid
  | _ => .invalid

/-! ## Component state -/

/-- An element of `data`: `{ x: Date, y: number }`. -/
structure Point where
  x : JSDate
  y : JSNum
  deriving DecidableEq

/-- The `analytics` object. -/
structure Analytics where
  high : JSNum
  low : JSNum
  volume : JSNum
  baseValue : JSNum
  deriving DecidableEq

/-- The `useState` cells of `ChartComponent`.  `sectionData` holds `sectionData?.usd`:
`none` stands for `null`, `undefined` and an object without `usd`. -/
structure State where
  data : List Point
  price : JSNum
  percentageChange : JSNum
  error : String
  timeframe : String
  chartType : String
  activeTab : String
  analytics : Analytics
  sectionData : Option JSNum
  deriving DecidableEq

/-- The initial values given to `useState`. -/
def initialState : State where
  data := []
  price := zero
  percentageChange := zero
  error := ""
  timeframe := "7"
  chartType := "line"
  activeTab := "Chart"
  analytics := { high := zero, low := zero, volume := zero, baseValue := zero }
  sectionData := none

/-! ## The primary fetch -/

/-- The body `response.data` of the `market_chart` endpoint: two lists of
`[timestamp, value]` pairs, each of which may be missing (`undefined`). -/
structure MarketChart where
  prices : Option (List (JSNum × JSNum))
  total_volumes : Option (List (JSNum × JSNum))

/-- Code that runs inside `try`: from the current state it yields a value or throws, and
the state updates made before a throw stay in place. -/
def Try (α : Type) : Type := State → Except JSError α × State

instance : Monad Try where
  pure a := fun st => (.ok a, st)
  bind m f := fun st =>
    match m st with
    | (.ok a, st1) => f a st1
    | (.error e, st1) => (.error e, st1)

/-- Throwing inside `try`. -/
def throwJS {α : Type} (e : JSError) : Try α := fun st => (.error e, st)

/-- The result of an `await`: the resolved value, or the rejection thrown. -/
def await {α : Type} : Except JSError α → Try α
  | .ok a => pure a
  | .error e => throwJS e

/-- Using a value that may be `undefined` as an object (calling a method on it, indexing
it): a `TypeError` when it is `undefined`. -/
def deref {α : Type} : Option α → Try α
  | some a => pure a
  | none => throwJS JSError.typeError

/-- The state setter `setData`. -/
def setData (v : List Point) : Try Unit := fun st => (.ok (), { st with data := v })

/-- The state setter `setPrice`. -/
def setPrice (v : JSNum) : Try Unit := fun st => (.ok (), { st with price := v })

/-- The state setter `setPercentageChange`. -/
def setPercentageChange (v : JSNum) : Try Unit :=
  fun st => (.ok (), { st with percentageChange := v })

/-- The state setter `setAnalytics`. -/
def setAnalytics (v : Analytics) : Try Unit := fun st => (.ok (), { st with analytics := v })

/-- The message stored by the `catch` block of `fetchData`. -/
def fetchErrorMessage : String := "Oooops...Error in Fetching data due to multiple request!!!"

/-- The `try` block of `fetchData`, from the point where `axios.get` has settled with
`response` (rejected, or resolved with `response.data`). -/
def fetchDataTry (response : Except JSError MarketChart) : Try Unit := do
  let responseData ← await response
  let prices := responseData.prices
  let volumes := responseData.total_volumes
  let pricesArr ← deref prices
  let mappedData := pricesArr.map fun (timestamp, value) =>
    ({ x := newDate timestamp, y := value } : Point)
  let latestPrice := (← deref pricesArr[pricesArr.length - 1]?).2
  let firstPrice := (← deref pricesArr[0]?).2
  let highPrice := mathMax (pricesArr.map fun p => p.2)
  let lowPrice := mathMin (pricesArr.map fun p => p.2)
  let volumesArr ← deref volumes
  let totalVolume := volumesArr.foldl (fun acc v => add acc v.2) zero
  setData mappedData
  setPrice latestPrice
  setPercentageChange (mul (div (sub latestPrice firstPrice) firstPrice) (fin 100))
  setAnalytics
    { high := highPrice, low := lowPrice, volume := totalVolume, baseValue := firstPrice }

/-- The function `fetchData` once its request has settled: the `try` block, and the `catch`
block that stores the error message. -/
def fetchData (st : State) (response : Except JSError MarketChart) : State :=
  match fetchDataTry response st with
  | (.ok _, st1) => st1
  | (.error _, st1) => { st1 with error := fetchErrorMessage }

/-- The function `fetchSectionData` once its request has settled: `response` is the
rejection, or `response.data.bitcoin?.usd`.  A failure is only logged. -/
def fetchSectionData (st : State) (response : Except JSError (Option JSNum)) : State :=
  match response with
  | .ok bitcoin => { st with sectionData := bitcoin }
  | .error _ => st

/-- The values of a series of `[timestamp, value]` pairs, in order. -/
def values (S : List (JSNum × JSNum)) : List JSNum := S.map fun p => p.2

/-! ## Effects, event handlers and the rendered controls -/

/-- A network request issued through `axios.get`: the `market_chart` endpoint with its
`days` parameter, or the `simple/price` endpoint. -/
inductive Request where
  | marketChart (days : String)
  | simplePrice
  deriving DecidableEq

/-- The component together with its environment: the state cells, the log of every request
issued since the page was first opened, and the number of requests of each kind that are
in flight. -/
structure World where
  st : State
  calls : List Request
  pendingPrimary : ℕ
  pendingSection : ℕ
  deriving DecidableEq

/-- The callback of `useEffect`, up to the `await`s: `fetchData()` issues the primary
request, and `fetchSectionData(activeTab)` issues the auxiliary one when the active tab is
not `"Chart"`. -/
def runEffect (w : World) : World :=
  let w1 : World :=
    { w with calls := w.calls ++ [Request.marketChart w.st.timeframe],
             pendingPrimary := w.pendingPrimary + 1 }
  if w1.st.activeTab ≠ "Chart" then
    { w1 with calls := w1.calls ++ [Request.simplePrice],
              pendingSection := w1.pendingSection + 1 }
  else w1

/-- The render that follows a state update: the effect runs when one of its dependencies
`[timeframe, activeTab]` differs from its value `old` at the previous render. -/
def rerender (old : State) (w : World) : World :=
  if w.st.timeframe ≠ old.timeframe ∨ w.st.activeTab ≠ old.activeTab then runEffect w else w

/-- The first render: initial state, and the effect runs once. -/
def mount (calls : List Request) : World :=
  runEffect { st := initialState, calls := calls, pendingPrimary := 0, pendingSection := 0 }

/-- The world when the page is first opened. -/
def initialWorld : World := mount []

/-- The handler `() => setTimeframe(v)` and the render it causes. -/
def setTimeframe (v : String) (w : World) : World :=
  rerender w.st { w with st := { w.st with timeframe := v } }

/-- The handler `() => setChartType(v)` and the render it causes. -/
def setChartType (v : String) (w : World) : World :=
  rerender w.st { w with st := { w.st with chartType := v } }

/-- The handler `() => setActiveTab(v)` and the render it causes. -/
def setActiveTab (v : String) (w : World) : World :=
  rerender w.st { w with st := { w.st with activeTab := v } }

/-- The values of the four timeframe buttons (`1d`, `1w`, `1m`, `1y`). -/
def timeframeButtons : List String := ["1", "7", "30", "365"]

/-- The values of the two chart-type buttons of the Settings section. -/
def chartTypeButtons : List String := ["line", "bar"]

/-- The five tabs. -/
def tabs : List String := ["Summary", "Chart", "Statistics", "Analysis", "Settings"]

/-- The test `if (error)`: a non-empty string is truthy, and the component then returns
the error view (message and Refresh button) instead of everything else. -/
def showsError (st : State) : Bool := st.error ≠ ""

/-- The section chosen by the `switch (activeTab)` of `renderSection`. -/
inductive Section where
  | summary
  | statistics
  | analysis
  | settings
  | chart
  deriving DecidableEq

/-- The `switch (activeTab)` of `renderSection`; the chart is the `default` case. -/
def renderSection (st : State) : Section :=
  if st.activeTab = "Summary" then .summary
  else if st.activeTab = "Statistics" then .statistics
  else if st.activeTab = "Analysis" then .analysis
  else if st.activeTab = "Settings" then .settings
  else .chart

/-- The timeframe buttons are rendered when `activeTab === "Chart"`, outside the error
view. -/
def timeframeButtonsVisible (st : State) : Bool := !showsError st && st.activeTab = "Chart"

/-- The tab buttons are rendered outside the error view. -/
def tabsVisible (st : State) : Bool := !showsError st

/-- The chart-type buttons are rendered in the Settings section. -/
def chartTypeButtonsVisible (st : State) : Bool :=
  !showsError st && renderSection st = .settings

/-- The Download button is rendered in the chart section. -/
def downloadVisible (st : State) : Bool := !showsError st && renderSection st = .chart

/-- The `className` of the timeframe button with value `b`. -/
def timeframeButtonClass (st : State) (b : String) : String :=
  if st.timeframe = b then "active-button" else ""

/-- The `className` of the chart-type button with value `b`. -/
def chartTypeButtonClass (st : State) (b : String) : String :=
  if st.chartType = b then "active-button" else ""

/-- The `backgroundColor` of the tab button `tab`. -/
def tabBackground (st : State) (tab : String) : String :=
  if st.activeTab = tab then "#4A90E2" else "#ddd"

/-- The `color` of the percentage-change paragraph of the header:
`percentageChange > 0 ? "green" : "red"`. -/
def percentageColor (st : State) : String :=
  if gt st.percentageChange (fin 0) then "green" else "red"

/-- What can happen to the component: a click on one of its buttons, or the settling of a
request in flight with some response. -/
inductive Event where
  | clickTimeframe (v : String)
  | clickTab (v : String)
  | clickChartType (v : String)
  | clickDownload
  | clickRefresh
  | primarySettled (response : Except JSError MarketChart)
  | sectionSettled (response : Except JSError (Option JSNum))

/-- One event.  A click on a button that is not rendered, and the settling of a request
that is not in flight, cannot happen and leave the world as it is.  Refresh reloads the
page: the state is reset, the requests in flight are abandoned, and the component mounts
again. -/
def step (w : World) : Event → World
  | .clickTimeframe v =>
    if timeframeButtonsVisible w.st ∧ v ∈ timeframeButtons then setTimeframe v w else w
  | .clickTab v =>
    if tabsVisible w.st ∧ v ∈ tabs then setActiveTab v w else w
  | .clickChartType v =>
    if chartTypeButtonsVisible w.st ∧ v ∈ chartTypeButtons then setChartType v w else w
  | .clickDownload => w
  | .clickRefresh => if showsError w.st then mount w.calls else w
  | .primarySettled response =>
    if 0 < w.pendingPrimary then
      rerender w.st
        { w with st := fetchData w.st response, pendingPrimary := w.pendingPrimary - 1 }
    else w
  | .sectionSettled response =>
    if 0 < w.pendingSection then
      rerender w.st
        { w with st := fetchSectionData w.st response, pendingSection := w.pendingSection - 1 }
    else w

/-- The world after a sequence of events, from the opening of the page. -/
def run (events : List Event) : World := events.foldl step initialWorld

/-- The worlds the component can be in. -/
def Reachable (w : World) : Prop := ∃ events, run events = w

/-! ## Text: `toFixed(2)`, `toISOString()` and the CSV export -/

/-- The decimal digits of a natural number, most significant first (`"0"` for zero). -/
def decimal (n : ℕ) : List Char :=
  if n < 10 then [Nat.digitChar n] else decimal (n / 10) ++ [Nat.digitChar (n % 10)]
termination_by n
decreasing_by omega

/-- The string method `padStart(width, "0")` on a list of characters. -/
def padZeros (width : ℕ) (cs : List Char) : List Char :=
  List.replicate (width - cs.length) '0' ++ cs

/-- The integer `n` for which `n / 100 - x` is as close to zero as possible, the larger one
when there are two (`x ≥ 0`). -/
def nearestHundredths (x : ℚ) : ℕ := ⌊x * 100 + 1 / 2⌋.toNat

/-- The method `Number.prototype.toFixed` with argument `2`.  Values that are not finite
give `"NaN"`, `"Infinity"` and `"-Infinity"`; from `10^21` on the result is the sign
followed by the general number-to-string conversion of the magnitude, `numberToString`
(exponential notation); below it, the digits of the nearest number of hundredths, padded to
three digits, with a point before the last two. -/
def toFixed2 (numberToString : ℚ → String) : JSNum → String
  | nan => "NaN"
  | posInf => "Infinity"
  | negInf => "-Infinity"
  | fin q =>
    let s := if q < 0 then "-" else ""
    let x := |q|
    if 10 ^ 21 ≤ x then s ++ numberToString x
    else
      let m := padZeros 3 (decimal (nearestHundredths x))
      let k := m.length
      let a := m.take (k - 2)
      let b := m.drop (k - 2)
      s ++ String.mk (a ++ '.' :: b)

/-- Milliseconds per day. -/
def msPerDay : ℤ := 86400000

/-- The calendar date `(year, month, day)` of the day number `days` (days since
1970-01-01) in the proleptic Gregorian calendar: `YearFromTime`, `MonthFromTime + 1` and
`DateFromTime`. -/
def civilFromDays (days : ℤ) : ℤ × ℤ × ℤ :=
  let z := days + 719468
  let era := z / 146097
  let doe := z - era * 146097
  let yoe := (doe - doe / 1460 + doe / 36524 - doe / 146096) / 365
  let doy := doe - (365 * yoe + yoe / 4 - yoe / 100)
  let mp := (5 * doy + 2) / 153
  let d := doy - (153 * mp + 2) / 5 + 1
  let m := if mp < 10 then mp + 3 else mp - 9
  let y := yoe + era * 400 + (if m ≤ 2 then 1 else 0)
  (y, m, d)

/-- The year of an ISO date string: four digits from year 0 to 9999, otherwise a sign and
six digits. -/
def isoYear (y : ℤ) : List Char :=
  if 0 ≤ y ∧ y ≤ 9999 then padZeros 4 (decimal y.toNat)
  else (if y < 0 then '-' else '+') :: padZeros 6 (decimal y.natAbs)

/-- The text `YYYY-MM-DDTHH:mm:ss.sssZ` of a time value. -/
def isoString (t : ℤ) : String :=
  let day := t / msPerDay
  let ms := (t % msPerDay).toNat
  let (y, m, d) := civilFromDays day
  String.mk
    (isoYear y ++ '-' :: padZeros 2 (decimal m.toNat) ++ '-' :: padZeros 2 (decimal d.toNat)
      ++ 'T' :: padZeros 2 (decimal (ms / 3600000))
      ++ ':' :: padZeros 2 (decimal (ms / 60000 % 60))
      ++ ':' :: padZeros 2 (decimal (ms / 1000 % 60))
      ++ '.' :: padZeros 3 (decimal (ms % 1000)) ++ ['Z'])

/-- The method `Date.prototype.toISOString`: a `RangeError` on an invalid date. -/
def toISOString : JSDate → Except JSError String
  | .invalid => .error .rangeError
  | .valid t => .ok (isoString t)

/-- The header line of the CSV file, with its line break. -/
def header : String := "Timestamp,Price (USD)\n"

/-- The callback of `data.map` in `downloadCSV`: the template literal
`${item.x.toISOString()},${item.y.toFixed(2)}`. -/
def csvRow (numberToString : ℚ → String) (item : Point) : Except JSError String := do
  let iso ← toISOString item.x
  pure (iso ++ "," ++ toFixed2 numberToString item.y)

/-- The file handed to the browser by `link.click()`: its name (`link.download`) and its
text (the content of the `Blob`). -/
structure Download where
  download : String
  csvFile : String
  deriving DecidableEq

/-- The function `downloadCSV`.  It reads `data` and `timeframe` and changes no state; an
exception thrown while the rows are built leaves the function before any file is made. -/
def downloadCSV (numberToString : ℚ → String) (st : State) : Except JSError Download := do
  let rows ← st.data.mapM (csvRow numberToString)
  let csvContent := String.intercalate "\n" rows
  let csvFile := header ++ csvContent
  pure { download := "bitcoin_prices_" ++ st.timeframe ++ "_days.csv", csvFile := csvFile }

/-! ## Vocabulary of the specification -/

/-- The sum of the values of a series, in the arithmetic of the program: accumulated from
`0` in series order, each addition rounded as doubles are. -/
def sumValues (V : List (JSNum × JSNum)) : JSNum := (values V).foldl add zero

/-- The doubles `0.1` and `0.2`, by their exact values, as a volume series. -/
def tenthFifth : List (JSNum × JSNum) :=
  [(fin 1704067200000, fin (3602879701896397 / 36028797018963968)),
   (fin 1704153600000, fin (3602879701896397 / 18014398509481984))]

/-- The series of the scenario: `(Jan 1, 100)`, `(Jan 2, 110)`, with the timestamps of
2024-01-01 and 2024-01-02 in milliseconds. -/
def janSeries : List (JSNum × JSNum) :=
  [(fin 1704067200000, fin 100), (fin 1704153600000, fin 110)]

/-- A state holding the series of the scenario, as `fetchData` stores it. -/
def janState : State :=
  fetchData initialState (.ok { prices := some janSeries, total_volumes := some [] })

/-- The selection invariant: each of the three selections has one of the values offered by
its buttons. -/
def Selected (st : State) : Prop :=
  st.timeframe ∈ timeframeButtons ∧ st.chartType ∈ chartTypeButtons ∧ st.activeTab ∈ tabs

/-- The events of the sequence "go to Settings, change the chart style, return to Chart". -/
def settingsRoundTrip : List Event :=
  [.clickTab "Settings", .clickChartType "bar", .clickTab "Chart"]

/-- A number written to two decimal places, in the words of the specification: the sign,
the digits of the whole part of the number rounded to hundredths, a point, and exactly two
fractional digits. -/
def twoDecimals (q : ℚ) : String :=
  (if q < 0 then "-" else "") ++
    String.mk (decimal (nearestHundredths |q| / 100) ++
      ['.', Nat.digitChar (nearestHundredths |q| % 100 / 10),
        Nat.digitChar (nearestHundredths |q| % 10)])

/-- The state cell `data` holding the points `pts`, each a valid date and a finite
value. -/
def seriesOf (pts : List (ℤ × ℚ)) : List Point :=
  pts.map fun p => { x := .valid p.1, y := fin p.2 }

/-! # Theorems -/

/-! ## Lemmas on numbers -/

theorem JSNum.le_rfl_of_ne_nan (a : JSNum) (h : a ≠ nan) : le a a = true := by
  cases a <;> simp_all [le]

theorem JSNum.le_trans_js (a b c : JSNum) (h1 : le a b = true) (h2 : le b c = true) :
    le a c = true := by
  cases a <;> cases b <;> cases c <;> simp_all [le]
  exact le_trans h1 h2

theorem JSNum.le_of_gt (a b : JSNum) (h : gt a b = true) : le b a = true := by
  cases a <;> cases b <;> simp_all [le, gt]
  exact le_of_lt h

theorem JSNum.le_of_not_gt (a b : JSNum) (ha : a ≠ nan) (hb : b ≠ nan) (h : gt a b = false) :
    le a b = true := by
  cases a <;> cases b <;> simp_all [le, gt]

theorem foldl_maxStep (xs : List JSNum) (acc : JSNum) (hacc : acc ≠ nan)
    (hxs : ∀ x ∈ xs, x ≠ nan) :
    xs.foldl maxStep acc ≠ nan ∧ (xs.foldl maxStep acc = acc ∨ xs.foldl maxStep acc ∈ xs) ∧
      le acc (xs.foldl maxStep acc) = true ∧ ∀ x ∈ xs, le x (xs.foldl maxStep acc) = true := by
  induction xs generalizing acc with
  | nil => simp [hacc, JSNum.le_rfl_of_ne_nan]
  | cons y ys ih =>
    have hy : y ≠ nan := hxs y (by simp)
    have hys : ∀ x ∈ ys, x ≠ nan := fun x hx => hxs x (by simp [hx])
    have hstep : maxStep acc y ≠ nan := by
      unfold maxStep
      split_ifs <;> simp_all
    obtain ⟨h1, h2, h3, h4⟩ := ih (maxStep acc y) hstep hys
    have hacc_le : le acc (maxStep acc y) = true := by
      unfold maxStep
      split_ifs with ha hb
      · simp_all
      · exact JSNum.le_of_gt _ _ hb
      · exact JSNum.le_rfl_of_ne_nan _ hacc
    have hy_le : le y (maxStep acc y) = true := by
      unfold maxStep
      split_ifs with ha hb
      · simp_all
      · exact JSNum.le_rfl_of_ne_nan _ hy
      · exact JSNum.le_of_not_gt _ _ hy hacc (by simpa using hb)
    have hmem : maxStep acc y = acc ∨ maxStep acc y = y := by
      unfold maxStep
      split_ifs <;> simp_all
    refine ⟨h1, ?_, JSNum.le_trans_js _ _ _ hacc_le h3, ?_⟩
    · simp only [List.foldl_cons, List.mem_cons]
      rcases h2 with h2 | h2
      · rw [h2]
        rcases hmem with h | h
        · exact Or.inl h
        · exact Or.inr (Or.inl h)
      · exact Or.inr (Or.inr h2)
    · intro x hx
      simp only [List.foldl_cons]
      rcases List.mem_cons.mp hx with rfl | hx
      · exact JSNum.le_trans_js _ _ _ hy_le h3
      · exact h4 x hx

theorem mathMax_spec (xs : List JSNum) (hne : xs ≠ []) (hxs : ∀ x ∈ xs, x ≠ nan) :
    mathMax xs ∈ xs ∧ ∀ x ∈ xs, le x (mathMax xs) = true := by
  obtain ⟨_, h2, _, h4⟩ := foldl_maxStep xs negInf (by simp) hxs
  unfold mathMax
  refine ⟨?_, h4⟩
  rcases h2 with h2 | h2
  · obtain ⟨y, ys, rfl⟩ := List.exists_cons_of_ne_nil hne
    have hy := h4 y (by simp)
    rw [h2] at hy ⊢
    have : y = negInf := by
      have hyn := hxs y (by simp)
      cases y <;> simp_all [le]
    simp [this]
  · exact h2

theorem foldl_minStep (xs : List JSNum) (acc : JSNum) (hacc : acc ≠ nan)
    (hxs : ∀ x ∈ xs, x ≠ nan) :
    xs.foldl minStep acc ≠ nan ∧ (xs.foldl minStep acc = acc ∨ xs.foldl minStep acc ∈ xs) ∧
      le (xs.foldl minStep acc) acc = true ∧ ∀ x ∈ xs, le (xs.foldl minStep acc) x = true := by
  induction xs generalizing acc with
  | nil => simp [hacc, JSNum.le_rfl_of_ne_nan]
  | cons y ys ih =>
    have hy : y ≠ nan := hxs y (by simp)
    have hys : ∀ x ∈ ys, x ≠ nan := fun x hx => hxs x (by simp [hx])
    have hstep : minStep acc y ≠ nan := by
      unfold minStep
      split_ifs <;> simp_all
    obtain ⟨h1, h2, h3, h4⟩ := ih (minStep acc y) hstep hys
    have hacc_le : le (minStep acc y) acc = true := by
      unfold minStep
      split_ifs with ha hb
      · simp_all
      · exact JSNum.le_of_gt _ _ hb
      · exact JSNum.le_rfl_of_ne_nan _ hacc
    have hy_le : le (minStep acc y) y = true := by
      unfold minStep
      split_ifs with ha hb
      · simp_all
      · exact JSNum.le_rfl_of_ne_nan _ hy
      · exact JSNum.le_of_not_gt _ _ hacc hy (by simpa [lt] using hb)
    have hmem : minStep acc y = acc ∨ minStep acc y = y := by
      unfold minStep
      split_ifs <;> simp_all
    refine ⟨h1, ?_, JSNum.le_trans_js _ _ _ h3 hacc_le, ?_⟩
    · simp only [List.foldl_cons, List.mem_cons]
      rcases h2 with h2 | h2
      · rw [h2]
        rcases hmem with h | h
        · exact Or.inl h
        · exact Or.inr (Or.inl h)
      · exact Or.inr (Or.inr h2)
    · intro x hx
      simp only [List.foldl_cons]
      rcases List.mem_cons.mp hx with rfl | hx
      · exact JSNum.le_trans_js _ _ _ h3 hy_le
      · exact h4 x hx

theorem mathMin_spec (xs : List JSNum) (hne : xs ≠ []) (hxs : ∀ x ∈ xs, x ≠ nan) :
    mathMin xs ∈ xs ∧ ∀ x ∈ xs, le (mathMin xs) x = true := by
  obtain ⟨_, h2, _, h4⟩ := foldl_minStep xs posInf (by simp) hxs
  unfold mathMin
  refine ⟨?_, h4⟩
  rcases h2 with h2 | h2
  · obtain ⟨y, ys, rfl⟩ := List.exists_cons_of_ne_nil hne
    have hy := h4 y (by simp)
    rw [h2] at hy ⊢
    have : y = posInf := by
      have hyn := hxs y (by simp)
      cases y <;> simp_all [le]
    simp [this]
  · exact h2

/-! ## The primary fetch -/

theorem fetchData_resolved (st : State) (p : JSNum × JSNum) (ps V : List (JSNum × JSNum)) :
    fetchData st (.ok { prices := some (p :: ps), total_volumes := some V }) =
      { st with
        data := (p :: ps).map fun q => { x := newDate q.1, y := q.2 }
        price := ((p :: ps).getLast (List.cons_ne_nil p ps)).2
        percentageChange :=
          mul (div (sub ((p :: ps).getLast (List.cons_ne_nil p ps)).2 p.2) p.2) (fin 100)
        analytics :=
          { high := mathMax (values (p :: ps)), low := mathMin (values (p :: ps)),
            volume := V.foldl (fun acc v => add acc v.2) zero, baseValue := p.2 } } := by
  have h : (p :: ps)[ps.length]? = some ((p :: ps).getLast (List.cons_ne_nil p ps)) := by
    rw [List.getLast_eq_getElem]
    simp
  simp [fetchData, fetchDataTry, deref, await, bind, pure, setData, setPrice,
    setPercentageChange, setAnalytics, values, h]

/-- The outcomes of the `try` block on which the `catch` block runs: the request was
rejected, `prices` is missing or empty, or `total_volumes` is missing. -/
theorem fetchData_failed (st : State) (response : Except JSError MarketChart)
    (h : (∃ e, response = .error e) ∨
      ∃ d, response = .ok d ∧ (d.prices = none ∨ d.prices = some [] ∨ d.total_volumes = none)) :
    fetchData st response = { st with error := fetchErrorMessage } := by
  rcases h with ⟨e, rfl⟩ | ⟨⟨prices, volumes⟩, rfl, h⟩
  · rfl
  · rcases h with h | h | h
    · simp only at h
      subst h
      rfl
    · simp only at h
      subst h
      rfl
    · simp only at h
      subst h
      cases prices with
      | none => rfl
      | some S =>
        cases S with
        | nil => rfl
        | cons p ps =>
          have h : (p :: ps)[ps.length]? = some ((p :: ps).getLast (List.cons_ne_nil p ps)) := by
            rw [List.getLast_eq_getElem]
            simp
          simp [fetchData, fetchDataTry, deref, await, bind, pure, throwJS, h]

/-! ## Rounding to doubles -/

theorem roundHalfEven_intCast (n : ℤ) : roundHalfEven (n : ℚ) = n := by
  simp [roundHalfEven]

theorem roundHalfEven_of_lt (m : ℚ) (f : ℤ) (h1 : (f : ℚ) ≤ m) (h2 : m < f + 1 / 2) :
    roundHalfEven m = f := by
  have hf : ⌊m⌋ = f := by
    rw [Int.floor_eq_iff]
    exact ⟨h1, by linarith⟩
  unfold roundHalfEven
  rw [hf, if_pos (by linarith)]

theorem roundHalfEven_of_gt (m : ℚ) (f : ℤ) (h1 : (f : ℚ) + 1 / 2 < m) (h2 : m < f + 1) :
    roundHalfEven m = f + 1 := by
  have hf : ⌊m⌋ = f := by
    rw [Int.floor_eq_iff]
    exact ⟨by linarith, h2⟩
  unfold roundHalfEven
  rw [hf, if_neg (by linarith), if_pos (by linarith)]

theorem roundHalfEven_tie_odd (m : ℚ) (f : ℤ) (h : m = f + 1 / 2) (hodd : f % 2 = 1) :
    roundHalfEven m = f + 1 := by
  have hf : ⌊m⌋ = f := by
    rw [Int.floor_eq_iff]
    exact ⟨by linarith, by linarith⟩
  unfold roundHalfEven
  rw [hf, if_neg (by linarith), if_neg (by linarith), if_neg (by omega)]

theorem binade_eq (q : ℚ) (e : ℤ) (hq : 0 < q) (he : -1022 ≤ e) (hlo : (2 : ℚ) ^ e ≤ q)
    (hhi : q < (2 : ℚ) ^ (e + 1)) : binade q = e := by
  have h1 : e ≤ Int.log 2 q := by
    rw [← Int.zpow_le_iff_le_log (by norm_num) hq]
    exact_mod_cast hlo
  have h2 : Int.log 2 q < e + 1 := by
    rw [← Int.lt_zpow_iff_log_lt (by norm_num) hq]
    exact_mod_cast hhi
  unfold binade
  omega

theorem roundDouble_zero : roundDouble 0 = fin 0 := by
  have h : ¬ ((2 : ℚ) ^ 1024 ≤ 0) := by norm_num
  simp [roundDouble, roundHalfEven, h]

/-- The value of `roundDouble` on a positive number, from its binary exponent `e` and the
rounded multiple `n` of the spacing `2^(e-52)`. -/
theorem roundDouble_pos (q : ℚ) (e n : ℤ) (hq : 0 < q) (he : -1022 ≤ e)
    (hlo : (2 : ℚ) ^ e ≤ q) (hhi : q < (2 : ℚ) ^ (e + 1))
    (hn : roundHalfEven (q / 2 ^ (e - 52)) = n) :
    roundDouble q = if (2 : ℚ) ^ 1024 ≤ (n : ℚ) * 2 ^ (e - 52) then posInf
      else fin ((n : ℚ) * 2 ^ (e - 52)) := by
  have hb : binade |q| = e := by
    rw [abs_of_pos hq]
    exact binade_eq q e hq he hlo hhi
  unfold roundDouble
  rw [hb, abs_of_pos hq, hn]
  simp [hq, not_lt.mpr hq.le]

/-- A positive integer below `2^53` is a double: rounding leaves it as it is.  The exponent
is given as `52 - k`. -/
theorem roundDouble_int (n : ℤ) (k : ℕ) (hn : 0 < n) (hk : k ≤ 52)
    (hlo : (2 : ℚ) ^ ((52 : ℤ) - k) ≤ n) (hhi : (n : ℚ) < (2 : ℚ) ^ ((52 : ℤ) - k + 1)) :
    roundDouble n = fin n := by
  have hpow : (2 : ℚ) ^ ((52 : ℤ) - k - 52) = ((2 : ℚ) ^ k)⁻¹ := by
    rw [show (52 : ℤ) - k - 52 = -(k : ℤ) by ring, zpow_neg, zpow_natCast]
  have h2k : (0 : ℚ) < 2 ^ k := by positivity
  have hround : roundHalfEven ((n : ℚ) / 2 ^ ((52 : ℤ) - k - 52)) = n * 2 ^ k := by
    have h : (n : ℚ) / 2 ^ ((52 : ℤ) - k - 52) = ((n * 2 ^ k : ℤ) : ℚ) := by
      rw [hpow]
      push_cast
      field_simp
    rw [h, roundHalfEven_intCast]
  have hval : ((n * 2 ^ k : ℤ) : ℚ) * 2 ^ ((52 : ℤ) - k - 52) = n := by
    rw [hpow]
    push_cast
    field_simp
  rw [roundDouble_pos n (52 - k) (n * 2 ^ k) (by exact_mod_cast hn) (by omega) hlo hhi hround,
    hval]
  have hbound : ¬ ((2 : ℚ) ^ 1024 ≤ n) := by
    have h53 : (2 : ℚ) ^ ((52 : ℤ) - k + 1) ≤ 2 ^ (53 : ℤ) :=
      zpow_le_zpow_right₀ (by norm_num) (by omega)
    have h1024 : (2 : ℚ) ^ (53 : ℤ) < 2 ^ 1024 := by norm_num
    linarith
  rw [if_neg hbound]

theorem roundDouble_five : roundDouble 5 = fin 5 := by
  have h := roundDouble_int 5 50 (by norm_num) (by norm_num) (by norm_num) (by norm_num)
  simpa using h

theorem roundDouble_ten : roundDouble 10 = fin 10 := by
  have h := roundDouble_int 10 49 (by norm_num) (by norm_num) (by norm_num) (by norm_num)
  simpa using h

theorem roundDouble_twelve : roundDouble 12 = fin 12 := by
  have h := roundDouble_int 12 49 (by norm_num) (by norm_num) (by norm_num) (by norm_num)
  simpa using h

/-- The double nearest to `1/10`. -/
theorem roundDouble_tenth :
    roundDouble (1 / 10) = fin (3602879701896397 / 36028797018963968) := by
  rw [roundDouble_pos (1 / 10) (-4) 7205759403792794 (by norm_num) (by norm_num)
    (by norm_num) (by norm_num)
    (roundHalfEven_of_gt _ 7205759403792793 (by norm_num) (by norm_num))]
  norm_num

/-- The double `0.1` times `100` rounds to `10`. -/
theorem roundDouble_tenth_times_hundred :
    roundDouble (3602879701896397 / 36028797018963968 * 100) = fin 10 := by
  rw [roundDouble_pos _ 3 5629499534213120 (by norm_num) (by norm_num)
    (by norm_num) (by norm_num)
    (roundHalfEven_of_lt _ 5629499534213120 (by norm_num) (by norm_num))]
  norm_num

/-- The doubles `0.1` and `0.2` add up to the double `0.30000000000000004`, above their
exact sum. -/
theorem roundDouble_tenth_plus_fifth :
    roundDouble (3602879701896397 / 36028797018963968 + 3602879701896397 / 18014398509481984)
      = fin (1351079888211149 / 4503599627370496) := by
  rw [roundDouble_pos _ (-2) 5404319552844596 (by norm_num) (by norm_num)
    (by norm_num) (by norm_num)
    (roundHalfEven_tie_odd _ 5404319552844595 (by norm_num) (by norm_num))]
  norm_num

/-- The sum of `2^1023` and itself overflows to `Infinity`. -/
theorem roundDouble_overflow : roundDouble (2 ^ 1023 + 2 ^ 1023) = posInf := by
  rw [roundDouble_pos _ 1024 (2 ^ 52) (by positivity) (by norm_num)
    (by norm_num) (by norm_num) (by
      have h : ((2 : ℚ) ^ 1023 + 2 ^ 1023) / 2 ^ ((1024 : ℤ) - 52) = ((2 ^ 52 : ℤ) : ℚ) := by
        norm_num
      rw [h, roundHalfEven_intCast])]
  norm_num

/-- The double `0.1` is a double: rounding leaves it as it is. -/
theorem roundDouble_tenth_times_one :
    roundDouble (3602879701896397 / 36028797018963968)
      = fin (3602879701896397 / 36028797018963968) := by
  rw [roundDouble_pos _ (-4) 7205759403792794 (by norm_num) (by norm_num)
    (by norm_num) (by norm_num) (by
      have h : (3602879701896397 / 36028797018963968 : ℚ) / 2 ^ ((-4 : ℤ) - 52)
          = ((7205759403792794 : ℤ) : ℚ) := by norm_num
      rw [h, roundHalfEven_intCast])]
  norm_num

/-- The number `2^1023` is a double: rounding leaves it as it is. -/
theorem roundDouble_two_pow : roundDouble (2 ^ 1023) = fin (2 ^ 1023) := by
  rw [roundDouble_pos _ 1023 (2 ^ 52) (by positivity) (by norm_num)
    (by norm_num) (by norm_num) (by
      have h : ((2 : ℚ) ^ 1023) / 2 ^ ((1023 : ℤ) - 52) = ((2 ^ 52 : ℤ) : ℚ) := by
        norm_num
      rw [h, roundHalfEven_intCast])]
  norm_num

theorem percentage_single (q : ℚ) (hq : q ≠ 0) :
    mul (div (sub (fin q) (fin q)) (fin q)) (fin 100) = fin 0 := by
  simp [sub, neg, add, div, mul, hq, roundDouble_zero]

theorem percentage_jan :
    mul (div (sub (fin 110) (fin 100)) (fin 100)) (fin 100) = fin 10 := by
  have h1 : sub (fin 110) (fin 100) = fin 10 := by
    have h : (110 : ℚ) + -100 = 10 := by norm_num
    simp only [sub, neg, add, h, roundDouble_ten]
  have h2 : div (fin 10) (fin 100) = fin (3602879701896397 / 36028797018963968) := by
    have h : (10 : ℚ) / 100 = 1 / 10 := by norm_num
    have h0 : ¬ ((100 : ℚ) = 0) := by norm_num
    simp only [div, h0, if_false, h, roundDouble_tenth]
  rw [h1, h2]
  simp only [mul, roundDouble_tenth_times_hundred]

/-! ## Claims on the primary fetch -/

/-- C1: for a non-empty price series `S` (of JSON numbers, so without `NaN`) in a resolved
response that also carries a volume list, `fetchData` stores in `analytics.high` a value of
`S` that every value of `S` is below or equal to, and in `analytics.low` a value of `S`
that is below or equal to every value of `S`: the maximum and the minimum of `S`. -/
theorem fetchData_high_low (st : State) (S V : List (JSNum × JSNum)) (hS : S ≠ [])
    (hnum : ∀ v ∈ values S, v ≠ nan) :
    (fetchData st (.ok { prices := some S, total_volumes := some V })).analytics.high
        ∈ values S ∧
    (fetchData st (.ok { prices := some S, total_volumes := some V })).analytics.low
        ∈ values S ∧
    ∀ v ∈ values S,
      le (fetchData st (.ok { prices := some S, total_volumes := some V })).analytics.low v
          = true ∧
      le v (fetchData st (.ok { prices := some S, total_volumes := some V })).analytics.high
          = true := by
  obtain ⟨p, ps, rfl⟩ := List.exists_cons_of_ne_nil hS
  have hne : values (p :: ps) ≠ [] := by simp [values]
  obtain ⟨hmax, hmaxle⟩ := mathMax_spec (values (p :: ps)) hne hnum
  obtain ⟨hmin, hminle⟩ := mathMin_spec (values (p :: ps)) hne hnum
  rw [fetchData_resolved]
  exact ⟨hmax, hmin, fun v hv => ⟨hminle v hv, hmaxle v hv⟩⟩

/-- Witness of C1: the series `[(Jan 1, 100), (Jan 2, 110)]`. -/
theorem fetchData_high_low_witness :
    (fetchData initialState (.ok { prices := some janSeries, total_volumes := some [] })
        ).analytics.high ∈ values janSeries ∧
    (fetchData initialState (.ok { prices := some janSeries, total_volumes := some [] })
        ).analytics.low ∈ values janSeries ∧
    ∀ v ∈ values janSeries,
      le (fetchData initialState (.ok { prices := some janSeries, total_volumes := some [] })
          ).analytics.low v = true ∧
      le v (fetchData initialState (.ok { prices := some janSeries, total_volumes := some [] })
          ).analytics.high = true :=
  fetchData_high_low initialState janSeries [] (by simp [janSeries])
    (by simp [janSeries, values])

/-- C2, as stated, fails: the single-point series whose value is `0` gives
`(0 - 0) / 0 * 100`, which is `NaN` and not `0`. -/
theorem fetchData_percentageChange_single_zero :
    (fetchData initialState
        (.ok { prices := some [(fin 1704067200000, fin 0)], total_volumes := some [] })
      ).percentageChange = nan ∧
    (fetchData initialState
        (.ok { prices := some [(fin 1704067200000, fin 0)], total_volumes := some [] })
      ).percentageChange ≠ fin 0 := by
  rw [fetchData_resolved]
  simp [sub, neg, add, div, mul, roundDouble_zero]

/-- C2, amended: for every non-empty price series `S`, `fetchData` stores
`(last(S) - first(S)) / first(S) * 100` in `percentageChange`, and for every single-point
series whose value is finite and not zero this is `0`. -/
theorem fetchData_percentageChange (st : State) (S V : List (JSNum × JSNum)) (hS : S ≠ []) :
    (fetchData st (.ok { prices := some S, total_volumes := some V })).percentageChange =
      mul (div (sub (S.getLast hS).2 (S.head hS).2) (S.head hS).2) (fin 100) ∧
    ∀ t q, S = [(t, fin q)] → q ≠ 0 →
      (fetchData st (.ok { prices := some S, total_volumes := some V })).percentageChange
        = fin 0 := by
  obtain ⟨p, ps, rfl⟩ := List.exists_cons_of_ne_nil hS
  rw [fetchData_resolved]
  refine ⟨rfl, ?_⟩
  intro t q h hq
  simp only [List.cons.injEq] at h
  obtain ⟨rfl, rfl⟩ := h
  exact percentage_single q hq

/-- Witness of C2: with timeframe `1`, the series `[(Jan 1, 100), (Jan 2, 110)]` gives
price `110`, percentage change `10`, high `110` and low `100`; the single-point series
`[(Jan 1, 100)]` gives percentage change `0`. -/
theorem fetchData_percentageChange_witness :
    janSeries ≠ [] ∧
    (fetchData { initialState with timeframe := "1" }
        (.ok { prices := some janSeries, total_volumes := some [] })).percentageChange
      = fin 10 ∧
    (fetchData { initialState with timeframe := "1" }
        (.ok { prices := some janSeries, total_volumes := some [] })).price = fin 110 ∧
    (fetchData { initialState with timeframe := "1" }
        (.ok { prices := some janSeries, total_volumes := some [] })).analytics.high
      = fin 110 ∧
    (fetchData { initialState with timeframe := "1" }
        (.ok { prices := some janSeries, total_volumes := some [] })).analytics.low
      = fin 100 ∧
    (fetchData initialState
        (.ok { prices := some [(fin 1704067200000, fin 100)], total_volumes := some [] })
      ).percentageChange = fin 0 := by
  have hne : janSeries ≠ [] := by simp [janSeries]
  refine ⟨hne, ?_, ?_, ?_, ?_, ?_⟩
  · rw [(fetchData_percentageChange _ janSeries [] hne).1]
    exact percentage_jan
  · simp [janSeries, fetchData_resolved]
  · simp [janSeries, fetchData_resolved, values, mathMax, maxStep, gt]
    norm_num
  · simp [janSeries, fetchData_resolved, values, mathMin, minStep, gt, lt]
    norm_num
  · exact (fetchData_percentageChange initialState [(fin 1704067200000, fin 100)] []
      (by simp)).2 _ 100 rfl (by norm_num)

theorem fetchDataTry_resolved_ok (st : State) (p : JSNum × JSNum)
    (ps V : List (JSNum × JSNum)) :
    ∃ st1, fetchDataTry (.ok { prices := some (p :: ps), total_volumes := some V }) st
      = (.ok (), st1) := by
  have h : (p :: ps)[ps.length]? = some ((p :: ps).getLast (List.cons_ne_nil p ps)) := by
    rw [List.getLast_eq_getElem]
    simp
  simp [fetchDataTry, deref, await, bind, pure, setData, setPrice, setPercentageChange,
    setAnalytics, h]

theorem fetchDataTry_failed (st : State) (response : Except JSError MarketChart)
    (h : (∃ e, response = .error e) ∨
      ∃ d, response = .ok d ∧ (d.prices = none ∨ d.prices = some [] ∨ d.total_volumes = none)) :
    ∃ e, fetchDataTry response st = (.error e, st) := by
  rcases h with ⟨e, rfl⟩ | ⟨⟨prices, volumes⟩, rfl, h⟩
  · exact ⟨e, rfl⟩
  · rcases h with h | h | h
    · simp only at h
      subst h
      exact ⟨.typeError, rfl⟩
    · simp only at h
      subst h
      exact ⟨.typeError, rfl⟩
    · simp only at h
      subst h
      cases prices with
      | none => exact ⟨.typeError, rfl⟩
      | some S =>
        cases S with
        | nil => exact ⟨.typeError, rfl⟩
        | cons p ps =>
          have h : (p :: ps)[ps.length]? = some ((p :: ps).getLast (List.cons_ne_nil p ps)) := by
            rw [List.getLast_eq_getElem]
            simp
          refine ⟨.typeError, ?_⟩
          simp [fetchDataTry, deref, await, bind, pure, throwJS, h]

/-- Every response is a failure of one of the listed kinds or carries a non-empty price
list and a volume list. -/
theorem response_cases (response : Except JSError MarketChart) :
    ((∃ e, response = .error e) ∨
      ∃ d, response = .ok d ∧ (d.prices = none ∨ d.prices = some [] ∨ d.total_volumes = none)) ∨
    ∃ p ps V, response = .ok { prices := some (p :: ps), total_volumes := some V } := by
  rcases response with e | ⟨prices, volumes⟩
  · exact Or.inl (Or.inl ⟨e, rfl⟩)
  · rcases prices with _ | S
    · exact Or.inl (Or.inr ⟨_, rfl, Or.inl rfl⟩)
    · rcases S with _ | ⟨p, ps⟩
      · exact Or.inl (Or.inr ⟨_, rfl, Or.inr (Or.inl rfl)⟩)
      · rcases volumes with _ | V
        · exact Or.inl (Or.inr ⟨_, rfl, Or.inr (Or.inr rfl)⟩)
        · exact Or.inr ⟨p, ps, V, rfl⟩

/-- C3: when the `try` block of `fetchData` throws, no state setter has run before the
throw, so `fetchData` leaves `data`, `price`, `percentageChange` and `analytics` as they
were and stores the error message; a rejected request, a missing or empty `prices` list and
a missing `total_volumes` list all make it throw; and on every response `fetchData` either
does exactly that or replaces the four values together, never only some of them. -/
theorem fetchData_failure_atomic (st : State) (response : Except JSError MarketChart) :
    (∀ e st1, fetchDataTry response st = (.error e, st1) →
      st1 = st ∧ fetchData st response = { st with error := fetchErrorMessage } ∧
      (fetchData st response).data = st.data ∧
      (fetchData st response).price = st.price ∧
      (fetchData st response).percentageChange = st.percentageChange ∧
      (fetchData st response).analytics = st.analytics ∧
      (fetchData st response).error = fetchErrorMessage) ∧
    (((∃ e, response = .error e) ∨
        ∃ d, response = .ok d ∧
          (d.prices = none ∨ d.prices = some [] ∨ d.total_volumes = none)) →
      ∃ e, fetchDataTry response st = (.error e, st)) ∧
    (fetchData st response = { st with error := fetchErrorMessage } ∨
      ∃ p ps V, response = .ok { prices := some (p :: ps), total_volumes := some V } ∧
        fetchData st response =
          { st with
            data := (p :: ps).map fun q => { x := newDate q.1, y := q.2 }
            price := ((p :: ps).getLast (List.cons_ne_nil p ps)).2
            percentageChange :=
              mul (div (sub ((p :: ps).getLast (List.cons_ne_nil p ps)).2 p.2) p.2) (fin 100)
            analytics :=
              { high := mathMax (values (p :: ps)), low := mathMin (values (p :: ps)),
                volume := V.foldl (fun acc v => add acc v.2) zero, baseValue := p.2 } }) := by
  refine ⟨?_, fetchDataTry_failed st response, ?_⟩
  · intro e st1 h
    rcases response_cases response with hf | ⟨p, ps, V, rfl⟩
    · obtain ⟨e2, h2⟩ := fetchDataTry_failed st response hf
      rw [h2] at h
      have hst : st = st1 := (Prod.mk.inj h).2
      subst hst
      have hfd := fetchData_failed st response hf
      rw [hfd]
      exact ⟨rfl, rfl, rfl, rfl, rfl, rfl, rfl⟩
    · obtain ⟨st2, h2⟩ := fetchDataTry_resolved_ok st p ps V
      rw [h2] at h
      exact absurd (Prod.mk.inj h).1 (by simp)
  · rcases response_cases response with hf | ⟨p, ps, V, rfl⟩
    · exact Or.inl (fetchData_failed st response hf)
    · exact Or.inr ⟨p, ps, V, rfl, fetchData_resolved st p ps V⟩

/-- Witness of C3: a state holding a fetched series meets a rejected request, and a
response without `total_volumes`: both throw and leave everything but the error message. -/
theorem fetchData_failure_atomic_witness :
    fetchDataTry (.error .requestFailed) janState = (.error .requestFailed, janState) ∧
    fetchData janState (.error .requestFailed)
      = { janState with error := fetchErrorMessage } ∧
    (∃ e, fetchDataTry (.ok { prices := some janSeries, total_volumes := none }) janState
      = (.error e, janState)) :=
  ⟨rfl,
   ((fetchData_failure_atomic janState (.error .requestFailed)).1 .requestFailed janState
      rfl).2.1,
   (fetchData_failure_atomic janState
      (.ok { prices := some janSeries, total_volumes := none })).2.1
      (Or.inr ⟨_, rfl, Or.inr (Or.inr rfl)⟩)⟩

theorem foldl_add_values (V : List (JSNum × JSNum)) :
    V.foldl (fun acc v => add acc v.2) zero = sumValues V := by
  simp [sumValues, values, List.foldl_map]

/-- When no partial sum needs rounding, the accumulated sum is the exact sum. -/
theorem foldl_add_exact (qs : List ℚ)
    (hexact : ∀ k, k ≤ qs.length → roundDouble (qs.take k).sum = fin (qs.take k).sum) :
    (qs.map fin).foldl add zero = fin qs.sum := by
  induction qs using List.reverseRecOn with
  | nil => rfl
  | append_singleton qs q ih =>
    have hprev : ∀ k, k ≤ qs.length → roundDouble (qs.take k).sum = fin (qs.take k).sum := by
      intro k hk
      have h := hexact k (by simp; omega)
      rwa [List.take_append_of_le_length hk] at h
    have hlast := hexact (qs ++ [q]).length (le_refl _)
    rw [List.take_length] at hlast
    rw [List.map_append, List.foldl_append, ih hprev]
    simp only [List.map_cons, List.map_nil, List.foldl_cons, List.foldl_nil, add]
    simpa using hlast

theorem add_zero_fin (q : ℚ) : add zero (fin q) = roundDouble q := by
  simp only [add, zero, zero_add]

theorem volume_two (st : State) (p : JSNum × JSNum) (ps : List (JSNum × JSNum))
    (u v : JSNum × JSNum) :
    (fetchData st (.ok { prices := some (p :: ps), total_volumes := some [u, v] })
      ).analytics.volume = add (add zero u.2) v.2 := by
  rw [fetchData_resolved]
  rfl

/-- C7, as stated, fails: with an empty price series the `try` block throws before
`setAnalytics`, and the volume of the non-empty volume series `[(Jan 1, 5)]` is not
stored, `analytics.volume` stays `0`; and with a price series the stored value is the sum
as doubles add up, which for the doubles `0.1` and `0.2` is `0.30000000000000004`, not
their sum, and for `2^1023` twice is `Infinity`. -/
theorem fetchData_volume_empty_prices :
    (fetchData initialState
        (.ok { prices := some [], total_volumes := some [(fin 1704067200000, fin 5)] })
      ).analytics.volume = fin 0 ∧
    sumValues [(fin 1704067200000, fin 5)] = fin 5 ∧
    (fetchData initialState
        (.ok { prices := some [], total_volumes := some [(fin 1704067200000, fin 5)] })
      ).analytics.volume ≠ sumValues [(fin 1704067200000, fin 5)] ∧
    (fetchData initialState (.ok { prices := some janSeries, total_volumes := some tenthFifth })
      ).analytics.volume = fin (1351079888211149 / 4503599627370496) ∧
    (fetchData initialState (.ok { prices := some janSeries, total_volumes := some tenthFifth })
      ).analytics.volume
      ≠ fin (3602879701896397 / 36028797018963968 + 3602879701896397 / 18014398509481984) ∧
    (fetchData initialState
        (.ok { prices := some janSeries,
               total_volumes := some [(fin 1704067200000, fin (2 ^ 1023)),
                                      (fin 1704153600000, fin (2 ^ 1023))] })
      ).analytics.volume = posInf := by
  have h5 : sumValues [(fin 1704067200000, fin 5)] = fin 5 := by
    have h : sumValues [(fin 1704067200000, fin 5)] = add zero (fin 5) := rfl
    rw [h, add_zero_fin, roundDouble_five]
  have h0 : (fetchData initialState
        (.ok { prices := some [], total_volumes := some [(fin 1704067200000, fin 5)] })
      ).analytics.volume = fin 0 := rfl
  have hsum : (fetchData initialState
      (.ok { prices := some janSeries, total_volumes := some tenthFifth })
      ).analytics.volume = fin (1351079888211149 / 4503599627370496) := by
    rw [janSeries, tenthFifth, volume_two, add_zero_fin, roundDouble_tenth_times_one]
    exact roundDouble_tenth_plus_fifth
  refine ⟨h0, h5, ?_, hsum, ?_, ?_⟩
  · rw [h0, h5]
    simp
  · rw [hsum]
    simp only [ne_eq, JSNum.fin.injEq]
    norm_num
  · rw [janSeries, volume_two, add_zero_fin, roundDouble_two_pow]
    exact roundDouble_overflow

/-- C7, amended: for every volume series `V` in a primary response whose price series `S`
is not empty, `fetchData` stores in `analytics.volume` the sum of the values of `V` as the
program's arithmetic forms it, accumulated from `0` in series order with each addition
rounded to a double, whatever the points of `S` are; when no partial sum needs rounding,
this is the exact sum of the values. -/
theorem fetchData_volume (st : State) (S V : List (JSNum × JSNum)) (hS : S ≠ []) :
    (fetchData st (.ok { prices := some S, total_volumes := some V })).analytics.volume
      = sumValues V ∧
    ∀ qs : List ℚ, values V = qs.map fin →
      (∀ k, k ≤ qs.length → roundDouble (qs.take k).sum = fin (qs.take k).sum) →
      (fetchData st (.ok { prices := some S, total_volumes := some V })).analytics.volume
        = fin qs.sum := by
  obtain ⟨p, ps, rfl⟩ := List.exists_cons_of_ne_nil hS
  rw [fetchData_resolved]
  refine ⟨foldl_add_values V, ?_⟩
  intro qs hqs hexact
  simp only [foldl_add_values, sumValues, hqs]
  exact foldl_add_exact qs hexact

/-- Witness of C7: the series of the scenario with the volumes `5` and `7`, whose partial
sums `0`, `5` and `12` are doubles, stores the volume `12`. -/
theorem fetchData_volume_witness :
    janSeries ≠ [] ∧
    (fetchData initialState
        (.ok { prices := some janSeries,
               total_volumes := some [(fin 1704067200000, fin 5), (fin 1704153600000, fin 7)] })
      ).analytics.volume = fin 12 := by
  have hne : janSeries ≠ [] := by simp [janSeries]
  refine ⟨hne, ?_⟩
  have h := (fetchData_volume initialState janSeries
    [(fin 1704067200000, fin 5), (fin 1704153600000, fin 7)] hne).2 [5, 7]
    (by simp [values])
    (by
      intro k hk
      simp only [List.length_cons, List.length_nil] at hk
      interval_cases k
      · simpa using roundDouble_zero
      · simpa using roundDouble_five
      · have h12 : ([5, 7] : List ℚ).sum = 12 := by norm_num
        simp only [List.take_succ_cons, List.take_zero, h12]
        exact roundDouble_twelve)
  rw [h]
  norm_num

/-- C8, as stated, fails: on a response whose price series is empty `fetchData` stores the
error message, which is not empty, and the component renders the error view. -/
theorem fetchData_empty_prices_error :
    (fetchData initialState (.ok { prices := some [], total_volumes := some [] })).error
      = fetchErrorMessage ∧
    (fetchData initialState (.ok { prices := some [], total_volumes := some [] })).error
      ≠ "" ∧
    showsError (fetchData initialState (.ok { prices := some [], total_volumes := some [] }))
      = true := by
  refine ⟨rfl, ?_, ?_⟩ <;> decide

/-- C8, amended: a primary response whose price series is empty is not tolerated; reading
the last point of the empty list throws, `fetchData` stores the error message and keeps
the previous series, price, percentage change and analytics, and the component renders the
error view.  A response with a non-empty price series, a single point included, and a
volume list leaves the error message as it was. -/
theorem fetchData_empty_prices (st : State) (volumes : Option (List (JSNum × JSNum))) :
    fetchData st (.ok { prices := some [], total_volumes := volumes })
      = { st with error := fetchErrorMessage } ∧
    showsError (fetchData st (.ok { prices := some [], total_volumes := volumes })) = true ∧
    ∀ p ps V,
      (fetchData st (.ok { prices := some (p :: ps), total_volumes := some V })).error
        = st.error := by
  refine ⟨rfl, ?_, ?_⟩
  · have h : (fetchData st (.ok { prices := some [], total_volumes := volumes })).error
        = fetchErrorMessage := rfl
    simp only [showsError, h]
    decide
  · intro p ps V
    rw [fetchData_resolved]

/-! ## Effects and event handlers -/

theorem runEffect_st (w : World) : (runEffect w).st = w.st := by
  unfold runEffect
  simp only
  split_ifs <;> rfl

theorem rerender_st (old : State) (w : World) : (rerender old w).st = w.st := by
  unfold rerender
  split_ifs
  · exact runEffect_st w
  · rfl

theorem runEffect_calls (w : World) :
    (runEffect w).calls =
      w.calls ++ Request.marketChart w.st.timeframe ::
        (if w.st.activeTab = "Chart" then [] else [Request.simplePrice]) := by
  unfold runEffect
  by_cases h : w.st.activeTab = "Chart" <;> simp [h]

theorem runEffect_pendingSection (w : World) :
    (runEffect w).pendingSection =
      w.pendingSection + (if w.st.activeTab = "Chart" then 0 else 1) := by
  unfold runEffect
  by_cases h : w.st.activeTab = "Chart" <;> simp [h]

theorem setActiveTab_calls (w : World) (v : String) (hv : v ≠ w.st.activeTab) :
    (setActiveTab v w).calls =
      w.calls ++ Request.marketChart w.st.timeframe ::
        (if v = "Chart" then [] else [Request.simplePrice]) := by
  unfold setActiveTab rerender
  simp only [ne_eq, hv, not_false_eq_true, or_true, if_true]
  rw [runEffect_calls]

theorem setChartType_eq (w : World) (v : String) :
    setChartType v w = { w with st := { w.st with chartType := v } } := by
  simp [setChartType, rerender]

theorem fetchData_selection (st : State) (response : Except JSError MarketChart) :
    (fetchData st response).timeframe = st.timeframe ∧
    (fetchData st response).chartType = st.chartType ∧
    (fetchData st response).activeTab = st.activeTab := by
  rcases response_cases response with hf | ⟨p, ps, V, rfl⟩
  · rw [fetchData_failed st response hf]
    exact ⟨rfl, rfl, rfl⟩
  · rw [fetchData_resolved]
    exact ⟨rfl, rfl, rfl⟩

theorem fetchSectionData_selection (st : State) (response : Except JSError (Option JSNum)) :
    (fetchSectionData st response).timeframe = st.timeframe ∧
    (fetchSectionData st response).chartType = st.chartType ∧
    (fetchSectionData st response).activeTab = st.activeTab := by
  cases response <;> exact ⟨rfl, rfl, rfl⟩

theorem selected_initial : Selected initialWorld.st := by
  rw [initialWorld, mount, runEffect_st]
  simp [Selected, initialState, timeframeButtons, chartTypeButtons, tabs]

theorem selected_step (w : World) (e : Event) (h : Selected w.st) : Selected (step w e).st := by
  obtain ⟨h1, h2, h3⟩ := h
  cases e with
  | clickTimeframe v =>
    simp only [step]
    split_ifs with hg
    · rw [setTimeframe, rerender_st]
      exact ⟨hg.2, h2, h3⟩
    · exact ⟨h1, h2, h3⟩
  | clickTab v =>
    simp only [step]
    split_ifs with hg
    · rw [setActiveTab, rerender_st]
      exact ⟨h1, h2, hg.2⟩
    · exact ⟨h1, h2, h3⟩
  | clickChartType v =>
    simp only [step]
    split_ifs with hg
    · rw [setChartType, rerender_st]
      exact ⟨h1, hg.2, h3⟩
    · exact ⟨h1, h2, h3⟩
  | clickDownload => exact ⟨h1, h2, h3⟩
  | clickRefresh =>
    simp only [step]
    split_ifs
    · rw [mount, runEffect_st]
      simp [Selected, initialState, timeframeButtons, chartTypeButtons, tabs]
    · exact ⟨h1, h2, h3⟩
  | primarySettled response =>
    simp only [step]
    split_ifs
    · rw [rerender_st]
      obtain ⟨e1, e2, e3⟩ := fetchData_selection w.st response
      simp only [Selected, e1, e2, e3]
      exact ⟨h1, h2, h3⟩
    · exact ⟨h1, h2, h3⟩
  | sectionSettled response =>
    simp only [step]
    split_ifs
    · rw [rerender_st]
      obtain ⟨e1, e2, e3⟩ := fetchSectionData_selection w.st response
      simp only [Selected, e1, e2, e3]
      exact ⟨h1, h2, h3⟩
    · exact ⟨h1, h2, h3⟩

theorem selected_foldl (events : List Event) (w : World) (h : Selected w.st) :
    Selected (events.foldl step w).st := by
  induction events generalizing w with
  | nil => exact h
  | cons e es ih => exact ih (step w e) (selected_step w e h)

theorem selected_of_reachable (w : World) (h : Reachable w) : Selected w.st := by
  obtain ⟨events, rfl⟩ := h
  exact selected_foldl events initialWorld selected_initial

theorem one_active_timeframe (st : State) (h : st.timeframe ∈ timeframeButtons) :
    (timeframeButtons.map (timeframeButtonClass st)).count "active-button" = 1 := by
  simp only [timeframeButtons, List.mem_cons, List.mem_singleton, List.not_mem_nil,
    or_false] at h
  rcases h with h | h | h | h <;>
    simp [timeframeButtons, timeframeButtonClass, h]

theorem one_active_chartType (st : State) (h : st.chartType ∈ chartTypeButtons) :
    (chartTypeButtons.map (chartTypeButtonClass st)).count "active-button" = 1 := by
  simp only [chartTypeButtons, List.mem_cons, List.mem_singleton, List.not_mem_nil,
    or_false] at h
  rcases h with h | h <;>
    simp [chartTypeButtons, chartTypeButtonClass, h]

theorem one_active_tab (st : State) (h : st.activeTab ∈ tabs) :
    (tabs.map (tabBackground st)).count "#4A90E2" = 1 := by
  simp only [tabs, List.mem_cons, List.mem_singleton, List.not_mem_nil, or_false] at h
  rcases h with h | h | h | h | h <;>
    simp [tabs, tabBackground, h]

/-! ## Claims on views, selections and requests -/

/-- C4, as stated, fails: from the Settings view with the bar style chosen, the click on
the Chart tab issues a primary request, and the whole sequence "go to Settings, change the
chart style, return to Chart" records three new network calls, not zero. -/
theorem tab_switch_refetches :
    (run [.clickTab "Settings", .clickChartType "bar"]).st.activeTab = "Settings" ∧
    (step (run [.clickTab "Settings", .clickChartType "bar"]) (.clickTab "Chart")).calls =
      (run [.clickTab "Settings", .clickChartType "bar"]).calls ++ [.marketChart "7"] ∧
    (run settingsRoundTrip).calls =
      initialWorld.calls ++ [.marketChart "7", .simplePrice, .marketChart "7"] := by
  decide

/-- C4, amended: changing `activeTab` always triggers one primary series fetch, because the
effect depends on `activeTab` and calls `fetchData` first: switching to a different view
`v` issues the primary request for the current timeframe, followed by the auxiliary
request when `v` is not Chart, so returning to Chart issues exactly one request; the switch
itself changes `activeTab` only, so the same series is shown until a response arrives;
changing the chart style issues no request and changes `chartType` only. -/
theorem tab_switch_requests (w : World) (v : String) (hv : v ≠ w.st.activeTab) :
    (setActiveTab v w).calls =
      w.calls ++ Request.marketChart w.st.timeframe ::
        (if v = "Chart" then [] else [Request.simplePrice]) ∧
    (setActiveTab v w).st = { w.st with activeTab := v } ∧
    (setActiveTab v w).st.data = w.st.data ∧
    ∀ c, (setChartType c w).calls = w.calls ∧
      (setChartType c w).st = { w.st with chartType := c } := by
  refine ⟨setActiveTab_calls w v hv, ?_, ?_, ?_⟩
  · rw [setActiveTab, rerender_st]
  · rw [setActiveTab, rerender_st]
  · intro c
    rw [setChartType_eq]
    exact ⟨rfl, rfl⟩

/-- Witness of C4, amended: from the Settings view, the return to Chart. -/
theorem tab_switch_requests_witness :
    "Chart" ≠ (run [.clickTab "Settings", .clickChartType "bar"]).st.activeTab ∧
    (setActiveTab "Chart" (run [.clickTab "Settings", .clickChartType "bar"])).calls =
      (run [.clickTab "Settings", .clickChartType "bar"]).calls ++ [.marketChart "7"] := by
  have h : "Chart" ≠ (run [.clickTab "Settings", .clickChartType "bar"]).st.activeTab := by
    decide
  refine ⟨h, ?_⟩
  rw [(tab_switch_requests _ "Chart" h).1]
  decide

/-- C5: for every world and every view `v` different from the active one, switching
`activeTab` to `v` triggers exactly one auxiliary fetch when `v` is not Chart and none when
`v` is Chart: the log of requests gains one `simple/price` request, respectively none, and
as many auxiliary requests are added to those in flight; a click on a rendered tab button
is that switch. -/
theorem tab_switch_auxiliary (w : World) (v : String) (hv : v ≠ w.st.activeTab) :
    (setActiveTab v w).calls.count Request.simplePrice =
      w.calls.count Request.simplePrice + (if v = "Chart" then 0 else 1) ∧
    (setActiveTab v w).pendingSection =
      w.pendingSection + (if v = "Chart" then 0 else 1) ∧
    (tabsVisible w.st = true → v ∈ tabs → step w (.clickTab v) = setActiveTab v w) := by
  refine ⟨?_, ?_, ?_⟩
  · rw [setActiveTab_calls w v hv]
    by_cases h : v = "Chart" <;> simp [h, List.count_cons]
  · unfold setActiveTab rerender
    simp only [ne_eq, hv, not_false_eq_true, or_true, if_true]
    rw [runEffect_pendingSection]
  · intro h1 h2
    simp [step, h1, h2]

/-- Witness of C5: from the initial Chart view to Settings (one auxiliary request), and
from Settings back to Chart (none). -/
theorem tab_switch_auxiliary_witness :
    "Settings" ≠ initialWorld.st.activeTab ∧
    (setActiveTab "Settings" initialWorld).calls.count Request.simplePrice = 1 ∧
    "Chart" ≠ (setActiveTab "Settings" initialWorld).st.activeTab ∧
    (setActiveTab "Chart" (setActiveTab "Settings" initialWorld)).calls.count
      Request.simplePrice = 1 := by
  have h1 : "Settings" ≠ initialWorld.st.activeTab := by decide
  have h2 : "Chart" ≠ (setActiveTab "Settings" initialWorld).st.activeTab := by decide
  refine ⟨h1, ?_, h2, ?_⟩
  · rw [(tab_switch_auxiliary initialWorld "Settings" h1).1]
    decide
  · rw [(tab_switch_auxiliary _ "Chart" h2).1, (tab_switch_auxiliary _ "Settings" h1).1]
    decide

/-- C9, as stated, fails: before the first fetch `percentageChange` is exactly `0`, which
is non-negative, and the colour is red, not green. -/
theorem percentageColor_zero_red :
    initialState.percentageChange = fin 0 ∧
    le (fin 0) initialState.percentageChange = true ∧
    percentageColor initialState = "red" ∧
    percentageColor initialState ≠ "green" := by
  refine ⟨rfl, ?_, ?_, ?_⟩
  · simp [initialState, zero, le]
  · simp [percentageColor, initialState, zero, gt]
  · simp [percentageColor, initialState, zero, gt]

/-- C9, amended: the colour depends only on `percentageChange`, split as positive versus
not positive: it is green exactly when `percentageChange > 0` and red otherwise, so red
for every `percentageChange <= 0`, exactly `0` included, and for `NaN`. -/
theorem percentageColor_sign (st : State) :
    (percentageColor st = "green" ∨ percentageColor st = "red") ∧
    (percentageColor st = "green" ↔ gt st.percentageChange (fin 0) = true) ∧
    (le st.percentageChange (fin 0) = true → percentageColor st = "red") ∧
    (st.percentageChange = nan → percentageColor st = "red") ∧
    ∀ st2 : State, st2.percentageChange = st.percentageChange →
      percentageColor st2 = percentageColor st := by
  refine ⟨?_, ?_, ?_, ?_, ?_⟩
  · unfold percentageColor
    split_ifs <;> simp
  · unfold percentageColor
    split_ifs with h
    · simp [h]
    · simp only [h]
      decide
  · intro h
    unfold percentageColor
    have hg : gt st.percentageChange (fin 0) = false := by
      cases hp : st.percentageChange <;> simp_all [le, gt]
    simp [hg]
  · intro h
    simp [percentageColor, h, gt]
  · intro st2 h
    simp [percentageColor, h]

/-- C10: in every world reachable from the opening of the page by clicks and settled
requests, `timeframe` is one of `1, 7, 30, 365`, `chartType` is one of `line, bar` and
`activeTab` is one of the five tabs, so exactly one timeframe button, one chart-type
button and one tab are marked active; and each selection handler, and each click on a
selection button, changes only its own state cell: `setChartType` leaves `timeframe`,
`activeTab`, the series and the analytics as they were, and likewise for the others. -/
theorem selection_invariant (w : World) (h : Reachable w) :
    w.st.timeframe ∈ ["1", "7", "30", "365"] ∧
    w.st.chartType ∈ ["line", "bar"] ∧
    w.st.activeTab ∈ ["Summary", "Chart", "Statistics", "Analysis", "Settings"] ∧
    (timeframeButtons.map (timeframeButtonClass w.st)).count "active-button" = 1 ∧
    (chartTypeButtons.map (chartTypeButtonClass w.st)).count "active-button" = 1 ∧
    (tabs.map (tabBackground w.st)).count "#4A90E2" = 1 ∧
    (∀ v, (setChartType v w).st = { w.st with chartType := v }) ∧
    (∀ v, (setTimeframe v w).st = { w.st with timeframe := v }) ∧
    (∀ v, (setActiveTab v w).st = { w.st with activeTab := v }) ∧
    (∀ v, (step w (.clickChartType v)).st
      = { w.st with chartType := (step w (.clickChartType v)).st.chartType }) ∧
    (∀ v, (step w (.clickTimeframe v)).st
      = { w.st with timeframe := (step w (.clickTimeframe v)).st.timeframe }) ∧
    (∀ v, (step w (.clickTab v)).st
      = { w.st with activeTab := (step w (.clickTab v)).st.activeTab }) := by
  obtain ⟨h1, h2, h3⟩ := selected_of_reachable w h
  refine ⟨h1, h2, h3, one_active_timeframe w.st h1, one_active_chartType w.st h2,
    one_active_tab w.st h3, ?_, ?_, ?_, ?_, ?_, ?_⟩
  · intro v
    rw [setChartType, rerender_st]
  · intro v
    rw [setTimeframe, rerender_st]
  · intro v
    rw [setActiveTab, rerender_st]
  · intro v
    simp only [step]
    split_ifs
    · rw [setChartType, rerender_st]
    · rfl
  · intro v
    simp only [step]
    split_ifs
    · rw [setTimeframe, rerender_st]
    · rfl
  · intro v
    simp only [step]
    split_ifs
    · rw [setActiveTab, rerender_st]
    · rfl

/-- Witness of C10: the world after the sequence "go to Settings, change the chart style,
return to Chart" is reachable, and its selections are `7`, `bar` and `Chart`. -/
theorem selection_invariant_witness :
    Reachable (run settingsRoundTrip) ∧
    (run settingsRoundTrip).st.timeframe ∈ ["1", "7", "30", "365"] ∧
    (run settingsRoundTrip).st.chartType = "bar" ∧
    (chartTypeButtons.map (chartTypeButtonClass (run settingsRoundTrip).st)).count
      "active-button" = 1 :=
  ⟨⟨settingsRoundTrip, rfl⟩,
   (selection_invariant (run settingsRoundTrip) ⟨settingsRoundTrip, rfl⟩).1,
   by decide,
   (selection_invariant (run settingsRoundTrip) ⟨settingsRoundTrip, rfl⟩).2.2.2.2.1⟩

/-! ## Text -/

theorem decimal_lt_ten (n : ℕ) (h : n < 10) : decimal n = [Nat.digitChar n] := by
  rw [decimal]
  simp [h]

theorem decimal_ge_ten (n : ℕ) (h : 10 ≤ n) :
    decimal n = decimal (n / 10) ++ [Nat.digitChar (n % 10)] := by
  rw [decimal]
  simp [Nat.not_lt.mpr h]

theorem decimal_length_pos (n : ℕ) : 1 ≤ (decimal n).length := by
  by_cases h : n < 10
  · simp [decimal_lt_ten n h]
  · simp [decimal_ge_ten n (Nat.not_lt.mp h)]

theorem padZeros_decimal (n : ℕ) :
    padZeros 3 (decimal n) =
      decimal (n / 100) ++ [Nat.digitChar (n % 100 / 10), Nat.digitChar (n % 10)] := by
  by_cases h1 : n < 10
  · have e1 : n / 100 = 0 := by omega
    have e2 : n % 100 / 10 = 0 := by omega
    have e3 : n % 10 = n := by omega
    rw [decimal_lt_ten n h1, e1, e2, e3, decimal_lt_ten 0 (by omega)]
    simp [padZeros, List.replicate]
    decide
  · by_cases h2 : n < 100
    · have e1 : n / 100 = 0 := by omega
      have e2 : n % 100 / 10 = n / 10 := by omega
      rw [decimal_ge_ten n (by omega), decimal_lt_ten (n / 10) (by omega), e1, e2,
        decimal_lt_ten 0 (by omega)]
      simp [padZeros, List.replicate]
      decide
    · have e1 : n / 10 / 10 = n / 100 := by omega
      have e2 : n / 10 % 10 = n % 100 / 10 := by omega
      have hlen := decimal_length_pos (n / 100)
      rw [decimal_ge_ten n (by omega), decimal_ge_ten (n / 10) (by omega), e1, e2]
      have hz : 3 - (decimal (n / 100) ++ [Nat.digitChar (n % 100 / 10)] ++
          [Nat.digitChar (n % 10)]).length = 0 := by
        simp only [List.length_append, List.length_singleton]
        omega
      unfold padZeros
      rw [hz]
      simp

theorem toFixed2_eq_twoDecimals (numberToString : ℚ → String) (q : ℚ) (hq : |q| < 10 ^ 21) :
    toFixed2 numberToString (fin q) = twoDecimals q := by
  have hnot : ¬ (10 : ℚ) ^ 21 ≤ |q| := not_le.mpr hq
  simp only [toFixed2, twoDecimals, hnot, if_false, padZeros_decimal]
  congr 2
  simp

theorem digitChar_ne_newline (d : ℕ) (hd : d < 10) : Nat.digitChar d ≠ '\n' := by
  interval_cases d <;> decide

theorem decimal_no_newline (n : ℕ) : '\n' ∉ decimal n := by
  induction n using Nat.strong_induction_on with
  | _ n ih =>
    by_cases h : n < 10
    · rw [decimal_lt_ten n h]
      simpa using (digitChar_ne_newline n h).symm
    · rw [decimal_ge_ten n (Nat.not_lt.mp h)]
      simp only [List.mem_append, List.mem_singleton, not_or]
      exact ⟨ih (n / 10) (by omega), (digitChar_ne_newline _ (by omega)).symm⟩

theorem padZeros_no_newline (width : ℕ) (cs : List Char) (h : '\n' ∉ cs) :
    '\n' ∉ padZeros width cs := by
  unfold padZeros
  simp only [List.mem_append, not_or]
  refine ⟨?_, h⟩
  intro hmem
  have := List.eq_of_mem_replicate hmem
  exact absurd this (by decide)

theorem isoYear_no_newline (y : ℤ) : '\n' ∉ isoYear y := by
  unfold isoYear
  split_ifs
  · exact padZeros_no_newline _ _ (decimal_no_newline _)
  · simp only [List.mem_cons, not_or]
    exact ⟨by decide, padZeros_no_newline _ _ (decimal_no_newline _)⟩
  · simp only [List.mem_cons, not_or]
    exact ⟨by decide, padZeros_no_newline _ _ (decimal_no_newline _)⟩

theorem isoString_no_newline (t : ℤ) : '\n' ∉ (isoString t).toList := by
  have hpad : ∀ w n, '\n' ∉ padZeros w (decimal n) :=
    fun w n => padZeros_no_newline w _ (decimal_no_newline n)
  simp only [isoString, String.toList, List.mem_append, List.mem_cons, List.mem_singleton,
    not_or]
  simp [hpad, isoYear_no_newline]

theorem twoDecimals_no_newline (q : ℚ) : '\n' ∉ (twoDecimals q).toList := by
  unfold twoDecimals
  have h1 := decimal_no_newline (nearestHundredths |q| / 100)
  have h2 := (digitChar_ne_newline (nearestHundredths |q| % 100 / 10) (by omega)).symm
  have h3 := (digitChar_ne_newline (nearestHundredths |q| % 10) (by omega)).symm
  split_ifs <;> simp [String.toList, h1, h2, h3]

theorem csvRow_seriesOf (numberToString : ℚ → String) (p : ℤ × ℚ) (hp : |p.2| < 10 ^ 21) :
    csvRow numberToString { x := .valid p.1, y := fin p.2 }
      = .ok (isoString p.1 ++ "," ++ twoDecimals p.2) := by
  simp only [csvRow, toISOString, toFixed2_eq_twoDecimals numberToString p.2 hp]
  rfl

theorem mapM_csvRow (numberToString : ℚ → String) (pts : List (ℤ × ℚ))
    (hrange : ∀ p ∈ pts, |p.2| < 10 ^ 21) :
    (seriesOf pts).mapM (csvRow numberToString)
      = .ok (pts.map fun p => isoString p.1 ++ "," ++ twoDecimals p.2) := by
  induction pts with
  | nil => rfl
  | cons p ps ih =>
    have hp := hrange p (by simp)
    have hps : ∀ r ∈ ps, |r.2| < 10 ^ 21 := fun r hr => hrange r (by simp [hr])
    have ih1 := ih hps
    simp only [seriesOf, List.map_cons, List.mapM_cons] at ih1 ⊢
    rw [csvRow_seriesOf numberToString p hp, ih1]
    rfl

theorem nearestHundredths_natCast (n : ℕ) : nearestHundredths |(n : ℚ)| = n * 100 := by
  unfold nearestHundredths
  rw [abs_of_nonneg (by positivity)]
  have h : ⌊(n : ℚ) * 100 + 1 / 2⌋ = ((n * 100 : ℕ) : ℤ) := by
    rw [Int.floor_eq_iff]
    push_cast
    constructor <;> norm_num
  rw [h]
  exact Int.toNat_natCast _

theorem isoString_jan1 : isoString 1704067200000 = "2024-01-01T00:00:00.000Z" := by
  simp [isoString, civilFromDays, msPerDay, isoYear, padZeros, decimal]
  rfl

theorem isoString_jan2 : isoString 1704153600000 = "2024-01-02T00:00:00.000Z" := by
  simp [isoString, civilFromDays, msPerDay, isoYear, padZeros, decimal]
  rfl

theorem twoDecimals_100 : twoDecimals 100 = "100.00" := by
  have h := nearestHundredths_natCast 100
  simp only [Nat.cast_ofNat] at h
  simp only [twoDecimals, h]
  simp [decimal]
  rfl

theorem twoDecimals_110 : twoDecimals 110 = "110.00" := by
  have h := nearestHundredths_natCast 110
  simp only [Nat.cast_ofNat] at h
  simp only [twoDecimals, h]
  simp [decimal]
  rfl

/-! ## Claim on the CSV export -/

theorem toFixed2_large (numberToString : ℚ → String) :
    toFixed2 numberToString (fin (10 ^ 21)) = numberToString (10 ^ 21) := by
  have h1 : ¬ ((10 : ℚ) ^ 21 < 0) := by norm_num
  have h2 : |(10 : ℚ) ^ 21| = 10 ^ 21 := abs_of_pos (by norm_num)
  simp only [toFixed2, h1, h2, if_false, le_refl, if_true]
  exact String.empty_append _

/-- C6, as stated, fails: a response whose timestamp is in nanoseconds is beyond the range
of `Date`, `fetchData` stores an invalid date, and on that one-point series `downloadCSV`
throws a `RangeError` in `toISOString` and builds no text at all; a point whose value is
`Infinity` gives a row ending in `Infinity`, and a point whose value is `10^21` a row ending
in the general conversion of that number to a string, neither with two fractional digits. -/
theorem downloadCSV_not_every_series :
    (fetchData initialState
        (.ok { prices := some [(fin 1704067200000000000, fin 100)], total_volumes := some [] })
      ).data = [{ x := .invalid, y := fin 100 }] ∧
    (∀ numberToString,
      downloadCSV numberToString
        { initialState with data := [{ x := .invalid, y := fin 100 }] }
        = .error .rangeError) ∧
    (∀ numberToString,
      downloadCSV numberToString
          { initialState with data := [{ x := .valid 1704067200000, y := posInf }] }
        = .ok { download := "bitcoin_prices_7_days.csv",
                csvFile := "Timestamp,Price (USD)\n" ++
                  (isoString 1704067200000 ++ "," ++ "Infinity") }) ∧
    (∀ numberToString,
      downloadCSV numberToString
          { initialState with data := [{ x := .valid 1704067200000, y := fin (10 ^ 21) }] }
        = .ok { download := "bitcoin_prices_7_days.csv",
                csvFile := "Timestamp,Price (USD)\n" ++
                  (isoString 1704067200000 ++ "," ++ numberToString (10 ^ 21)) }) := by
  refine ⟨?_, fun _ => rfl, fun _ => rfl, fun f => ?_⟩
  · rw [fetchData_resolved]
    simp [newDate, maxTimeValue]
    norm_num
  · have hrow : csvRow f { x := .valid 1704067200000, y := fin (10 ^ 21) }
        = .ok (isoString 1704067200000 ++ "," ++ f (10 ^ 21)) := by
      simp only [csvRow, toISOString, toFixed2_large]
      rfl
    simp only [downloadCSV, initialState, List.mapM_cons, List.mapM_nil, hrow]
    rfl

/-- C6, amended: for every series of `n` points whose dates are valid and whose values are
finite and below `10^21` in magnitude, `downloadCSV` makes the file named
`bitcoin_prices_<timeframe>_days.csv` whose text is the header line
`Timestamp,Price (USD)` followed by the `n` rows, in series order and separated by line
breaks, the row of a point being its ISO-8601 timestamp, a comma and its value with exactly
two fractional digits; no row contains a line break; and for the empty series the text is
the header line alone. -/
theorem downloadCSV_text (numberToString : ℚ → String) (st : State) (pts : List (ℤ × ℚ))
    (hdata : st.data = seriesOf pts) (hrange : ∀ p ∈ pts, |p.2| < 10 ^ 21) :
    downloadCSV numberToString st =
      .ok { download := "bitcoin_prices_" ++ st.timeframe ++ "_days.csv",
            csvFile := "Timestamp,Price (USD)\n" ++
              String.intercalate "\n"
                (pts.map fun p => isoString p.1 ++ "," ++ twoDecimals p.2) } ∧
    (pts.map fun p => isoString p.1 ++ "," ++ twoDecimals p.2).length = st.data.length ∧
    (∀ p ∈ pts, '\n' ∉ (isoString p.1 ++ "," ++ twoDecimals p.2).toList) ∧
    (pts = [] →
      downloadCSV numberToString st =
        .ok { download := "bitcoin_prices_" ++ st.timeframe ++ "_days.csv",
              csvFile := "Timestamp,Price (USD)\n" }) := by
  have hmain : downloadCSV numberToString st =
      .ok { download := "bitcoin_prices_" ++ st.timeframe ++ "_days.csv",
            csvFile := "Timestamp,Price (USD)\n" ++
              String.intercalate "\n"
                (pts.map fun p => isoString p.1 ++ "," ++ twoDecimals p.2) } := by
    unfold downloadCSV
    rw [hdata, mapM_csvRow numberToString pts hrange]
    rfl
  refine ⟨hmain, ?_, ?_, ?_⟩
  · simp [hdata, seriesOf]
  · intro p _
    have h1 := isoString_no_newline p.1
    have h2 := twoDecimals_no_newline p.2
    simp only [String.toList] at h1 h2
    simp [String.toList, h1, h2]
  · intro hnil
    rw [hmain, hnil]
    rfl

/-- Witness of C6, amended: the series of the scenario, as `fetchData` stores it, gives
the header and the two rows `2024-01-01T00:00:00.000Z,100.00` and
`2024-01-02T00:00:00.000Z,110.00`. -/
theorem downloadCSV_text_witness :
    janState.data = seriesOf [(1704067200000, 100), (1704153600000, 110)] ∧
    (∀ p ∈ [((1704067200000 : ℤ), (100 : ℚ)), (1704153600000, 110)], |p.2| < 10 ^ 21) ∧
    ∀ numberToString,
      downloadCSV numberToString janState =
        .ok { download := "bitcoin_prices_7_days.csv",
              csvFile := "Timestamp,Price (USD)\n2024-01-01T00:00:00.000Z,100.00\n" ++
                "2024-01-02T00:00:00.000Z,110.00" } := by
  have hdata : janState.data = seriesOf [(1704067200000, 100), (1704153600000, 110)] := by
    rw [janState, janSeries, fetchData_resolved]
    simp [newDate, maxTimeValue, seriesOf]
    norm_num
  have hrange : ∀ p ∈ [((1704067200000 : ℤ), (100 : ℚ)), (1704153600000, 110)],
      |p.2| < 10 ^ 21 := by
    intro p hp
    simp only [List.mem_cons, List.mem_singleton, List.not_mem_nil, or_false] at hp
    rcases hp with rfl | rfl <;> norm_num
  refine ⟨hdata, hrange, fun f => ?_⟩
  rw [(downloadCSV_text f janState _ hdata hrange).1]
  simp only [List.map_cons, List.map_nil, isoString_jan1, isoString_jan2, twoDecimals_100,
    twoDecimals_110]
  rfl

end ChartBitcoin

